import Mathlib

/-!
Verification of the SMO-based SVM trainer in `SVM/svm.py`.

The embedding models the numeric state over exact rationals: feature
vectors are lists of rationals, the kernel is a function on such lists,
and the trainer state carries the hyperparameters `C`, `tol`, the kernel,
the training data, the multiplier vector `alpha` and the bias `b`.
-/

namespace SVM

/-- In-bounds numpy indexing into a rational vector; out of range gives 0
(never reached by the training loop, whose indices come from `List.range`). -/
def nth (l : List ℚ) (i : ℕ) : ℚ := l.getD i 0

/-- Indexing into the list of feature vectors. -/
def nthV (l : List (List ℚ)) (i : ℕ) : List ℚ := l.getD i []

/-- Linear kernel `np.sum(x * y, axis=-1)`: the dot product. -/
def linearKernel (x y : List ℚ) : ℚ := (List.zipWith (· * ·) x y).sum

/-- Polynomial kernel `(np.sum(x * y, axis=-1) + 1) ** 2`. -/
def polyKernel (x y : List ℚ) : ℚ := (linearKernel x y + 1) ^ 2

/-- The mutable state of a trainer during `fit`: hyperparameters, the kernel,
the referenced training data, the Lagrange multipliers and the bias. -/
structure FitState where
  C : ℚ
  tol : ℚ
  K : List ℚ → List ℚ → ℚ
  X : List (List ℚ)
  Y : List ℚ
  alpha : List ℚ
  b : ℚ

/-- Decision function `_g`:
`np.sum(self.alpha * self._Y * self.K(self._X, x)) + self.b`. -/
def g (s : FitState) (x : List ℚ) : ℚ :=
  ((List.range s.X.length).map
    (fun i => nth s.alpha i * nth s.Y i * s.K (nthV s.X i) x)).sum + s.b

/-- `_calc_error`: `E_i = g(x_i) - y_i`. -/
def calcError (s : FitState) (i : ℕ) : ℚ := g s (nthV s.X i) - nth s.Y i

/-- `_satisfy_kkt`: the KKT feasibility check for example `i`. -/
def satisfyKkt (s : FitState) (i : ℕ) : Bool :=
  let gi := g s (nthV s.X i)
  let yi := nth s.Y i
  if |nth s.alpha i| < s.tol then decide (gi * yi ≥ 1)
  else if |nth s.alpha i| > s.C - s.tol then decide (gi * yi ≤ 1)
  else decide (|gi * yi - 1| < s.tol)

/-- `np.argmin` over a rational vector: index of the first minimum. -/
def argmin (E : List ℚ) : ℕ :=
  (List.range E.length).foldl (fun best i => if nth E i < nth E best then i else best) 0

/-- `np.argmax` over a rational vector: index of the first maximum. -/
def argmax (E : List ℚ) : ℕ :=
  (List.range E.length).foldl (fun best i => if nth E i > nth E best then i else best) 0

/-- The inner-loop choice of the second index:
`i2 = np.argmin(E) if E1 > 0 else np.argmax(E)`. -/
def selectI2 (E1 : ℚ) (E : List ℚ) : ℕ := if E1 > 0 then argmin E else argmax E

/-- `np.clip(x, lo, hi) = min(max(x, lo), hi)`. -/
def clip (x lo hi : ℚ) : ℚ := min hi (max lo x)

/-- The clipping bounds `[L, H]` for the new second multiplier, from the
branch on `y1 * y2 < 0` in `fit`. -/
def clipBounds (C y1 y2 a1 a2 : ℚ) : ℚ × ℚ :=
  if y1 * y2 < 0 then (max 0 (a2 - a1), min C (C + a2 - a1))
  else (max 0 (a1 + a2 - C), min C (a1 + a2))

/-- The curvature `eta = k11 + k22 - 2 * k12` along the pair direction. -/
def etaOf (s : FitState) (i1 i2 : ℕ) : ℚ :=
  s.K (nthV s.X i1) (nthV s.X i1) + s.K (nthV s.X i2) (nthV s.X i2)
    - 2 * s.K (nthV s.X i1) (nthV s.X i2)

/-- The committed part of an inner-loop step, once every skip guard has been
passed: the new multipliers, the new bias and the two patched cache entries. -/
def commitUpdate (s : FitState) (E : List ℚ) (i1 i2 : ℕ) : FitState × List ℚ :=
  let E1 := calcError s i1
  let E2 := calcError s i2
  let y1 := nth s.Y i1
  let y2 := nth s.Y i2
  let alpha1 := nth s.alpha i1
  let alpha2 := nth s.alpha i2
  let k11 := s.K (nthV s.X i1) (nthV s.X i1)
  let k22 := s.K (nthV s.X i2) (nthV s.X i2)
  let k12 := s.K (nthV s.X i1) (nthV s.X i2)
  let LH := clipBounds s.C y1 y2 alpha1 alpha2
  let eta := k11 + k22 - 2 * k12
  let alpha2New := clip (alpha2 + y2 * (E1 - E2) / eta) LH.1 LH.2
  let alpha1New := alpha1 + y1 * y2 * (alpha2 - alpha2New)
  let alpha2Delta := alpha2New - alpha2
  let alpha1Delta := alpha1New - alpha1
  let b1New := -E1 - y1 * k11 * alpha1Delta - y2 * k12 * alpha2Delta + s.b
  let b2New := -E2 - y1 * k12 * alpha1Delta - y2 * k22 * alpha2Delta + s.b
  let bNew :=
    if 0 < alpha1New ∧ alpha1New < s.C then b1New
    else if 0 < alpha2New ∧ alpha2New < s.C then b2New
    else (b1New + b2New) / 2
  let s1 : FitState :=
    { s with alpha := (s.alpha.set i1 alpha1New).set i2 alpha2New, b := bNew }
  (s1, (E.set i1 (calcError s1 i1)).set i2 (calcError s1 i2))

/-- One inner-loop step of `fit` for the first index `i1`, over the state `s`
and the cached error vector `E`: the skip guards of the source in order
(zero error or KKT-feasible; second index equal to the first; empty clipping
interval; non-positive curvature), then the committed update. -/
def innerStep (s : FitState) (E : List ℚ) (i1 : ℕ) : FitState × List ℚ :=
  if calcError s i1 = 0 ∨ satisfyKkt s i1 then (s, E)
  else
    let i2 := selectI2 (calcError s i1) E
    if i1 = i2 then (s, E)
    else
      let LH := clipBounds s.C (nth s.Y i1) (nth s.Y i2) (nth s.alpha i1) (nth s.alpha i2)
      if LH.1 = LH.2 then (s, E)
      else if etaOf s i1 i2 ≤ 0 then (s, E)
      else commitUpdate s E i1 i2

/-- The error vector computed in full at the start of an outer pass. -/
def fullErrors (s : FitState) : List ℚ :=
  (List.range s.X.length).map (calcError s)

/-- One outer pass of `fit`: compute the full error cache, then run the inner
step for every first index `i1` in `0 .. N-1`. -/
def fitPass (s : FitState) : FitState :=
  ((List.range s.X.length).foldl (fun p i1 => innerStep p.1 p.2 i1) (s, fullErrors s)).1

/-- The state at entry of `fit`: `alpha` is set to all ones
(`np.ones([len(X)])`), the bias keeps its construction value `0`. -/
def initState (C tol : ℚ) (K : List ℚ → List ℚ → ℚ) (X : List (List ℚ)) (Y : List ℚ) :
    FitState :=
  { C := C, tol := tol, K := K, X := X, Y := Y, alpha := List.replicate X.length 1, b := 0 }

/-- The outer `for _ in range(max_iter)` loop of `fit`. -/
def fitLoop : ℕ → FitState → FitState
  | 0, s => s
  | n + 1, s => fitLoop n (fitPass s)

/-- `fit`, as a function of the constructed hyperparameters, the kernel and
the training data. -/
def fit (C tol : ℚ) (maxIter : ℕ) (K : List ℚ → List ℚ → ℚ)
    (X : List (List ℚ)) (Y : List ℚ) : FitState :=
  fitLoop maxIter (initState C tol K X Y)

/-- `predict`: `np.where(g(x) > 0, 1, -1)` over the query points. -/
def predict (s : FitState) (X : List (List ℚ)) : List ℤ :=
  X.map (fun x => if g s x > 0 then 1 else -1)

/-- The kernel variants selectable at construction. -/
inductive Kernel where
  | linear
  | poly
  | rbf (sigma : ℚ)
deriving DecidableEq

/-- The state of a freshly constructed model: hyperparameters, the kernel
attribute `K` (absent when no branch of `__init__` assigned it), and the
construction bias `0`. -/
structure SVMConfig where
  C : ℚ
  tol : ℚ
  maxIter : ℕ
  K : Option Kernel
  b : ℚ
deriving DecidableEq

/-- Keyword-argument lookup, modelling `kwargs['sigma']`. -/
def lookupKw (kwargs : List (String × ℚ)) (key : String) : Option ℚ :=
  (kwargs.find? (fun p => p.1 == key)).map (fun p => p.2)

/-- `__init__`: the three independent `if kernel == ...` branches; an
unrecognised kernel name assigns nothing, and the radial-basis branch raises
`KeyError` when `sigma` is missing from the keyword arguments. -/
def initSVM (C tol : ℚ) (maxIter : ℕ) (kernel : String) (kwargs : List (String × ℚ)) :
    Except String SVMConfig :=
  let K0 : Option Kernel := none
  let K1 := if kernel = "linear" then some Kernel.linear else K0
  let K2 := if kernel = "poly" then some Kernel.poly else K1
  if kernel = "rbf" then
    match lookupKw kwargs "sigma" with
    | none => Except.error "KeyError: sigma"
    | some sigma =>
        Except.ok { C := C, tol := tol, maxIter := maxIter, K := some (Kernel.rbf sigma), b := 0 }
  else
    Except.ok { C := C, tol := tol, maxIter := maxIter, K := K2, b := 0 }

/-- Reading the kernel attribute on first use inside `fit` or `predict`:
`AttributeError` when `__init__` assigned no kernel. -/
def kernelAttr (m : SVMConfig) : Except String Kernel :=
  match m.K with
  | none => Except.error "AttributeError: K"
  | some k => Except.ok k

/-- Every multiplier of the vector lies in `[0, C]`. -/
def alphaInRange (C : ℚ) (alpha : List ℚ) : Prop :=
  ∀ i, 0 ≤ nth alpha i ∧ nth alpha i ≤ C

/-- The label-weighted multiplier sum `Σ_i y_i * α_i`. -/
def wsum (Y alpha : List ℚ) : ℚ :=
  ∑ i ∈ Finset.range alpha.length, nth Y i * nth alpha i

/-- The new second multiplier of a committed step, as the source computes it:
`clip(α2 + y2 * (E1 - E2) / η, L, H)`. -/
def alpha2NewAt (s : FitState) (i1 i2 : ℕ) : ℚ :=
  clip (nth s.alpha i2 + nth s.Y i2 * (calcError s i1 - calcError s i2) / etaOf s i1 i2)
    (clipBounds s.C (nth s.Y i1) (nth s.Y i2) (nth s.alpha i1) (nth s.alpha i2)).1
    (clipBounds s.C (nth s.Y i1) (nth s.Y i2) (nth s.alpha i1) (nth s.alpha i2)).2

/-- The new first multiplier: `α1 + y1 * y2 * (α2 - α2_new)`. -/
def alpha1NewAt (s : FitState) (i1 i2 : ℕ) : ℚ :=
  nth s.alpha i1 + nth s.Y i1 * nth s.Y i2 * (nth s.alpha i2 - alpha2NewAt s i1 i2)

/-- The first candidate bias:
`b1_new = -E1 - y1 * k11 * Δα1 - y2 * k12 * Δα2 + b`. -/
def b1NewAt (s : FitState) (i1 i2 : ℕ) : ℚ :=
  -calcError s i1
    - nth s.Y i1 * s.K (nthV s.X i1) (nthV s.X i1) * (alpha1NewAt s i1 i2 - nth s.alpha i1)
    - nth s.Y i2 * s.K (nthV s.X i1) (nthV s.X i2) * (alpha2NewAt s i1 i2 - nth s.alpha i2)
    + s.b

/-- The second candidate bias:
`b2_new = -E2 - y1 * k12 * Δα1 - y2 * k22 * Δα2 + b`. -/
def b2NewAt (s : FitState) (i1 i2 : ℕ) : ℚ :=
  -calcError s i2
    - nth s.Y i1 * s.K (nthV s.X i1) (nthV s.X i2) * (alpha1NewAt s i1 i2 - nth s.alpha i1)
    - nth s.Y i2 * s.K (nthV s.X i2) (nthV s.X i2) * (alpha2NewAt s i1 i2 - nth s.alpha i2)
    + s.b

/-- One traced inner step: apply `innerStep` and record the resulting
multiplier vector and bias. -/
def passTraceStep (acc : (FitState × List ℚ) × List (List ℚ × ℚ)) (i1 : ℕ) :
    (FitState × List ℚ) × List (List ℚ × ℚ) :=
  let q := innerStep acc.1.1 acc.1.2 i1
  (q, acc.2 ++ [(q.1.alpha, q.1.b)])

/-- One traced outer pass: the final state and the `(alpha, b)` snapshots
after every inner step. -/
def fitPassTrace (s : FitState) : FitState × List (List ℚ × ℚ) :=
  let r := (List.range s.X.length).foldl passTraceStep ((s, fullErrors s), [])
  (r.1.1, r.2)

/-- The `(alpha, b)` trajectory over `n` outer passes. -/
def fitTraceLoop : ℕ → FitState → List (List ℚ × ℚ)
  | 0, _ => []
  | n + 1, s => (fitPassTrace s).2 ++ fitTraceLoop n (fitPassTrace s).1

/-- The full `(alpha, b)` trajectory of a training run. -/
def fitTrace (C tol : ℚ) (maxIter : ℕ) (K : List ℚ → List ℚ → ℚ)
    (X : List (List ℚ)) (Y : List ℚ) : List (List ℚ × ℚ) :=
  fitTraceLoop maxIter (initState C tol K X Y)

/-- The toy two-point training inputs of the spec's scenario. -/
def toyX : List (List ℚ) := [[1, 1], [-1, -1]]

/-- The toy labels. -/
def toyY : List ℚ := [1, -1]

/-- The training state at entry of `fit` on the toy scenario. -/
def toyState : FitState := initState 1 (1/1000) linearKernel toyX toyY

/-- A one-point state with an interior multiplier, used to instantiate the
KKT characterisation. -/
def kktState : FitState :=
  { C := 1, tol := 1/1000, K := linearKernel, X := [[1]], Y := [1],
    alpha := [1/2], b := 0 }

/-- The state the toy scenario reaches after its first committed update, a
fixed point of the remaining training. -/
def toyFitted : FitState :=
  { C := 1, tol := 1/1000, K := linearKernel, X := toyX, Y := toyY,
    alpha := [1/4, 1/4], b := 0 }

/-- Entry state of `fit` on the one-point dataset `[[1]]`, label `+1`, with
`C = 1/2` below the initial multiplier value. -/
def oneState : FitState := initState (1/2) (1/1000) linearKernel [[1]] [1]

lemma nth_set_eq (l : List ℚ) (i : ℕ) (a : ℚ) (h : i < l.length) :
    nth (l.set i a) i = a := by
  simp [nth, List.getD_eq_getElem?_getD, List.getElem?_set_self h]

lemma nth_set_ne (l : List ℚ) {i j : ℕ} (a : ℚ) (h : i ≠ j) :
    nth (l.set i a) j = nth l j := by
  simp [nth, List.getD_eq_getElem?_getD, List.getElem?_set_ne h]

lemma nth_oob (l : List ℚ) {i : ℕ} (h : l.length ≤ i) : nth l i = 0 :=
  List.getD_eq_default l 0 h

/-- A list fold preserves a predicate preserved by every step. -/
lemma foldl_pres {α β : Type} (f : β → α → β) (P : β → Prop) :
    ∀ (l : List α) (b : β), P b → (∀ b' a, a ∈ l → P b' → P (f b' a)) →
      P (l.foldl f b) := by
  intro l
  induction l with
  | nil => intro b hb _; exact hb
  | cons x xs ih =>
      intro b hb hstep
      exact ih _ (hstep b x (by simp) hb) (fun b' a ha hb' => hstep b' a (by simp [ha]) hb')

lemma fitLoop_pres (P : FitState → Prop) (h : ∀ s, P s → P (fitPass s)) :
    ∀ n s, P s → P (fitLoop n s) := by
  intro n
  induction n with
  | zero => intro s hs; exact hs
  | succ k ih => intro s hs; exact ih _ (h s hs)

/-- An inner step either leaves the state and cache untouched or commits the
pairwise update at the selected second index. -/
lemma innerStep_eq_skip_or_commit (s : FitState) (E : List ℚ) (i1 : ℕ) :
    innerStep s E i1 = (s, E) ∨
    (i1 ≠ selectI2 (calcError s i1) E ∧
      innerStep s E i1 = commitUpdate s E i1 (selectI2 (calcError s i1) E)) := by
  simp only [innerStep]
  by_cases h1 : calcError s i1 = 0 ∨ satisfyKkt s i1 = true
  · left; rw [if_pos h1]
  rw [if_neg h1]
  by_cases h2 : i1 = selectI2 (calcError s i1) E
  · left; rw [if_pos h2]
  rw [if_neg h2]
  by_cases h3 :
      (clipBounds s.C (nth s.Y i1) (nth s.Y (selectI2 (calcError s i1) E))
        (nth s.alpha i1) (nth s.alpha (selectI2 (calcError s i1) E))).1 =
      (clipBounds s.C (nth s.Y i1) (nth s.Y (selectI2 (calcError s i1) E))
        (nth s.alpha i1) (nth s.alpha (selectI2 (calcError s i1) E))).2
  · left; rw [if_pos h3]
  rw [if_neg h3]
  by_cases h4 : etaOf s i1 (selectI2 (calcError s i1) E) ≤ 0
  · left; rw [if_pos h4]
  · right; exact ⟨h2, by rw [if_neg h4]⟩

lemma commitUpdate_frame (s : FitState) (E : List ℚ) (i1 i2 : ℕ) :
    (commitUpdate s E i1 i2).1.C = s.C ∧ (commitUpdate s E i1 i2).1.tol = s.tol ∧
    (commitUpdate s E i1 i2).1.K = s.K ∧ (commitUpdate s E i1 i2).1.X = s.X ∧
    (commitUpdate s E i1 i2).1.Y = s.Y ∧
    (commitUpdate s E i1 i2).1.alpha.length = s.alpha.length ∧
    (commitUpdate s E i1 i2).2.length = E.length := by
  simp [commitUpdate]

lemma innerStep_frame (s : FitState) (E : List ℚ) (i1 : ℕ) :
    (innerStep s E i1).1.C = s.C ∧ (innerStep s E i1).1.tol = s.tol ∧
    (innerStep s E i1).1.K = s.K ∧ (innerStep s E i1).1.X = s.X ∧
    (innerStep s E i1).1.Y = s.Y ∧
    (innerStep s E i1).1.alpha.length = s.alpha.length ∧
    (innerStep s E i1).2.length = E.length := by
  rcases innerStep_eq_skip_or_commit s E i1 with h | ⟨_, h⟩
  · rw [h]; exact ⟨rfl, rfl, rfl, rfl, rfl, rfl, rfl⟩
  · rw [h]; exact commitUpdate_frame s E i1 _

lemma fitLoop_fixed {s : FitState} (h : fitPass s = s) : ∀ n, fitLoop n s = s := by
  intro n
  induction n with
  | zero => rfl
  | succ k ih => rw [fitLoop, h, ih]

lemma toy_fullErrors : fullErrors toyState = [3, -3] := by
  norm_num [fullErrors, toyState, initState, calcError, g, nth, nthV, linearKernel,
    toyX, toyY, List.range_succ]

lemma toy_step_commit : innerStep toyState [3, -3] 0 = (toyFitted, [0, 0]) := by
  norm_num [innerStep, commitUpdate, toyState, toyFitted, initState, calcError, g,
    satisfyKkt, selectI2, argmin, argmax, clip, clipBounds, etaOf, nth, nthV,
    linearKernel, toyX, toyY, List.range_succ, List.replicate_succ,
    List.set_cons_zero, List.set_cons_succ]

lemma toy_step_skip : innerStep toyFitted [0, 0] 1 = (toyFitted, [0, 0]) := by
  norm_num [innerStep, toyFitted, calcError, g, nth, nthV, linearKernel, toyX, toyY,
    List.range_succ]

lemma toy_pass : fitPass toyState = toyFitted := by
  have hr : List.range toyState.X.length = [0, 1] := rfl
  simp only [fitPass, hr, List.foldl_cons, List.foldl_nil, toy_fullErrors,
    toy_step_commit, toy_step_skip]

lemma toy_fullErrors_fixed : fullErrors toyFitted = [0, 0] := by
  norm_num [fullErrors, toyFitted, calcError, g, nth, nthV, linearKernel, toyX, toyY,
    List.range_succ]

lemma toy_step_skip0 : innerStep toyFitted [0, 0] 0 = (toyFitted, [0, 0]) := by
  norm_num [innerStep, toyFitted, calcError, g, nth, nthV, linearKernel, toyX, toyY,
    List.range_succ]

lemma toy_pass_fixed : fitPass toyFitted = toyFitted := by
  have hr : List.range toyFitted.X.length = [0, 1] := rfl
  simp only [fitPass, hr, List.foldl_cons, List.foldl_nil, toy_fullErrors_fixed,
    toy_step_skip0, toy_step_skip]

lemma toy_fit : fit 1 (1/1000) 10 linearKernel toyX toyY = toyFitted := by
  show fitLoop 10 toyState = toyFitted
  rw [show fitLoop 10 toyState = fitLoop 9 (fitPass toyState) from rfl, toy_pass,
    fitLoop_fixed toy_pass_fixed 9]

/-- C8: with the linear kernel, `C = 1`, tolerance `1/1000` and `max_iter = 10`,
fitting the two-point dataset `[[1,1],[-1,-1]]` with labels `[1,-1]` and then
predicting on those two training points returns exactly the labels `[1, -1]`. -/
theorem toy_two_point_prediction :
    predict (fit 1 (1/1000) 10 linearKernel [[1, 1], [-1, -1]] [1, -1])
      [[1, 1], [-1, -1]] = [1, -1] := by
  have h : fit 1 (1/1000) 10 linearKernel [[1, 1], [-1, -1]] [1, -1] = toyFitted := toy_fit
  rw [h]
  norm_num [predict, toyFitted, g, nth, nthV, linearKernel, toyX, toyY, List.range_succ]

/-- C7: `fit` performs exactly `max_iter` outer passes: it equals the
`max_iter`-fold iterate of the outer pass on the entry state, and each loop
layer unconditionally applies one more pass, with no convergence-based exit;
totality of `fit` gives termination. -/
theorem fit_exactly_max_iter_passes (C tol : ℚ) (maxIter : ℕ)
    (K : List ℚ → List ℚ → ℚ) (X : List (List ℚ)) (Y : List ℚ)
    (n : ℕ) (s : FitState) :
    fit C tol maxIter K X Y = fitPass^[maxIter] (initState C tol K X Y) ∧
    fitLoop (n + 1) s = fitLoop n (fitPass s) := by
  refine ⟨?_, rfl⟩
  show fitLoop maxIter (initState C tol K X Y) = _
  generalize initState C tol K X Y = s0
  induction maxIter generalizing s0 with
  | zero => rfl
  | succ k ih => rw [fitLoop, Function.iterate_succ_apply]; exact ih _

/-- C2 counterexample: constructing with the unknown kernel name `"gaussian"`
does not fail: construction succeeds and the kernel attribute is left unset. -/
theorem unknown_kernel_no_construction_error :
    initSVM 1 (1/1000) 100 "gaussian" [] =
      Except.ok { C := 1, tol := 1/1000, maxIter := 100, K := none, b := 0 } := by
  simp [initSVM]

/-- C2 amended: selecting the radial-basis kernel without `sigma` fails at
construction (`KeyError`); an unknown kernel name constructs successfully with
the kernel attribute unset, so that failure first surfaces when `fit` or
`predict` reads the kernel attribute. -/
theorem construction_error_policy (C tol : ℚ) (maxIter : ℕ)
    (kwargs : List (String × ℚ)) (h : lookupKw kwargs "sigma" = none) :
    initSVM C tol maxIter "rbf" kwargs = Except.error "KeyError: sigma" ∧
    ∀ m, initSVM C tol maxIter "gaussian" kwargs = Except.ok m →
      m.K = none ∧ kernelAttr m = Except.error "AttributeError: K" := by
  constructor
  · simp [initSVM, h]
  · intro m hm
    simp only [initSVM] at hm
    rw [if_neg (by decide)] at hm
    rw [Except.ok.injEq] at hm
    rw [← hm]
    exact ⟨by simp, rfl⟩

theorem construction_error_policy_witness :
    initSVM 1 (1/1000) 100 "rbf" [] = Except.error "KeyError: sigma" ∧
    ∀ m, initSVM 1 (1/1000) 100 "gaussian" [] = Except.ok m →
      m.K = none ∧ kernelAttr m = Except.error "AttributeError: K" :=
  construction_error_policy 1 (1/1000) 100 [] rfl

/-- C4: characterisation of the KKT feasibility check: at a multiplier that is
numerically zero it is `y*g ≥ 1`; at a multiplier numerically at the bound `C`
it is `y*g ≤ 1`; strictly between the tolerance bands it is `|y*g - 1| < tol`. -/
theorem satisfy_kkt_characterisation (s : FitState) (i : ℕ)
    (htol : 0 < s.tol) (hband : 2 * s.tol ≤ s.C) :
    (|nth s.alpha i| < s.tol →
      (satisfyKkt s i = true ↔ 1 ≤ nth s.Y i * g s (nthV s.X i))) ∧
    (|nth s.alpha i - s.C| < s.tol →
      (satisfyKkt s i = true ↔ nth s.Y i * g s (nthV s.X i) ≤ 1)) ∧
    (s.tol ≤ nth s.alpha i ∧ nth s.alpha i ≤ s.C - s.tol →
      (satisfyKkt s i = true ↔ |nth s.Y i * g s (nthV s.X i) - 1| < s.tol)) := by
  simp only [satisfyKkt]
  refine ⟨?_, ?_, ?_⟩
  · intro h1
    rw [if_pos h1, decide_eq_true_iff, ge_iff_le, mul_comm]
  · intro h2
    have h2a : s.C - s.tol < nth s.alpha i := by
      rcases abs_lt.mp h2 with ⟨ha, hb⟩
      linarith
    have h1f : ¬ |nth s.alpha i| < s.tol := by
      intro hcon
      have := lt_of_le_of_lt (le_abs_self (nth s.alpha i)) hcon
      linarith
    rw [if_neg h1f, if_pos (lt_of_lt_of_le h2a (le_abs_self _)),
      decide_eq_true_iff, mul_comm]
  · intro h3
    obtain ⟨h3a, h3b⟩ := h3
    have habs : |nth s.alpha i| = nth s.alpha i := abs_of_nonneg (by linarith)
    have h1f : ¬ |nth s.alpha i| < s.tol := by rw [habs]; linarith
    have h2f : ¬ |nth s.alpha i| > s.C - s.tol := by rw [habs]; linarith
    rw [if_neg h1f, if_neg h2f, decide_eq_true_iff, mul_comm]

theorem satisfy_kkt_characterisation_witness :
    (|nth kktState.alpha 0| < kktState.tol →
      (satisfyKkt kktState 0 = true ↔ 1 ≤ nth kktState.Y 0 * g kktState (nthV kktState.X 0))) ∧
    (|nth kktState.alpha 0 - kktState.C| < kktState.tol →
      (satisfyKkt kktState 0 = true ↔ nth kktState.Y 0 * g kktState (nthV kktState.X 0) ≤ 1)) ∧
    (kktState.tol ≤ nth kktState.alpha 0 ∧ nth kktState.alpha 0 ≤ kktState.C - kktState.tol →
      (satisfyKkt kktState 0 = true ↔
        |nth kktState.Y 0 * g kktState (nthV kktState.X 0) - 1| < kktState.tol)) :=
  satisfy_kkt_characterisation kktState 0 (by norm_num [kktState]) (by norm_num [kktState])

lemma clipBounds_opp (C y1 y2 a1 a2 : ℚ) (h : y1 * y2 < 0) :
    clipBounds C y1 y2 a1 a2 = (max 0 (a2 - a1), min C (C + a2 - a1)) := by
  rw [clipBounds, if_pos h]

lemma clipBounds_same (C y1 y2 a1 a2 : ℚ) (h : ¬ y1 * y2 < 0) :
    clipBounds C y1 y2 a1 a2 = (max 0 (a1 + a2 - C), min C (a1 + a2)) := by
  rw [clipBounds, if_neg h]

lemma clip_bounds_mem (x lo hi : ℚ) (h : lo ≤ hi) :
    lo ≤ clip x lo hi ∧ clip x lo hi ≤ hi := by
  unfold clip
  exact ⟨le_min h (le_max_left lo x), min_le_left hi (max lo x)⟩

lemma clipBounds_facts (C y1 y2 a1 a2 : ℚ) (h1 : 0 ≤ a1) (h1' : a1 ≤ C)
    (h2 : 0 ≤ a2) (h2' : a2 ≤ C) :
    0 ≤ (clipBounds C y1 y2 a1 a2).1 ∧ (clipBounds C y1 y2 a1 a2).2 ≤ C ∧
    (clipBounds C y1 y2 a1 a2).1 ≤ (clipBounds C y1 y2 a1 a2).2 := by
  unfold clipBounds
  split <;>
    refine ⟨le_max_left _ _, min_le_left _ _, ?_⟩ <;>
    rw [le_min_iff, max_le_iff, max_le_iff] <;>
    exact ⟨⟨by linarith, by linarith⟩, by linarith, by linarith⟩

lemma pair_update_in_range (C y1 y2 a1 a2 z : ℚ)
    (hy1 : y1 = 1 ∨ y1 = -1 ∨ y1 = 0) (hy2 : y2 = 1 ∨ y2 = -1 ∨ y2 = 0)
    (h1 : 0 ≤ a1) (h1' : a1 ≤ C)
    (hzl : (clipBounds C y1 y2 a1 a2).1 ≤ z)
    (hzu : z ≤ (clipBounds C y1 y2 a1 a2).2) :
    0 ≤ a1 + y1 * y2 * (a2 - z) ∧ a1 + y1 * y2 * (a2 - z) ≤ C := by
  rcases lt_or_le (y1 * y2) 0 with hprod | hprod
  · rw [clipBounds_opp C y1 y2 a1 a2 hprod] at hzl hzu
    have hminus : y1 * y2 = -1 := by
      rcases hy1 with h | h | h <;> rcases hy2 with h' | h' | h' <;>
        subst h <;> subst h' <;> norm_num at hprod ⊢
    rw [hminus]
    have l1 := le_trans (le_max_right 0 (a2 - a1)) hzl
    have l2 := le_trans hzu (min_le_right C (C + a2 - a1))
    constructor <;> linarith
  · rw [clipBounds_same C y1 y2 a1 a2 (not_lt.mpr hprod)] at hzl hzu
    have hcases : y1 * y2 = 1 ∨ y1 * y2 = 0 := by
      rcases hy1 with h | h | h <;> rcases hy2 with h' | h' | h' <;>
        subst h <;> subst h' <;> norm_num at hprod ⊢
    have l1 := le_trans (le_max_right 0 (a1 + a2 - C)) hzl
    have l2 := le_trans hzu (min_le_right C (a1 + a2))
    rcases hcases with h | h <;> rw [h] <;> constructor <;> linarith

lemma nth_set' (l : List ℚ) (i j : ℕ) (a : ℚ) :
    nth (l.set i a) j = if i = j ∧ i < l.length then a else nth l j := by
  simp only [nth, List.getD_eq_getElem?_getD, List.getElem?_set]
  by_cases hij : i = j
  · subst hij
    by_cases hi : i < l.length
    · simp [hi]
    · simp only [if_pos rfl, if_neg hi, true_and, if_false]
      rw [List.getElem?_eq_none (by omega)]
      simp
  · simp [hij]

lemma nth_set_set (l : List ℚ) (i1 i2 j : ℕ) (v1 v2 : ℚ) :
    nth ((l.set i1 v1).set i2 v2) j =
      if i2 = j ∧ i2 < l.length then v2
      else if i1 = j ∧ i1 < l.length then v1
      else nth l j := by
  simp only [nth_set', List.length_set]

lemma commitUpdate_alpha (s : FitState) (E : List ℚ) (i1 i2 : ℕ) :
    (commitUpdate s E i1 i2).1.alpha =
      (s.alpha.set i1 (alpha1NewAt s i1 i2)).set i2 (alpha2NewAt s i1 i2) := rfl

lemma commitUpdate_b (s : FitState) (E : List ℚ) (i1 i2 : ℕ) :
    (commitUpdate s E i1 i2).1.b =
      (if 0 < alpha1NewAt s i1 i2 ∧ alpha1NewAt s i1 i2 < s.C then b1NewAt s i1 i2
       else if 0 < alpha2NewAt s i1 i2 ∧ alpha2NewAt s i1 i2 < s.C then b2NewAt s i1 i2
       else (b1NewAt s i1 i2 + b2NewAt s i1 i2) / 2) := rfl

lemma commitUpdate_E (s : FitState) (E : List ℚ) (i1 i2 : ℕ) :
    (commitUpdate s E i1 i2).2 =
      (E.set i1 (calcError (commitUpdate s E i1 i2).1 i1)).set i2
        (calcError (commitUpdate s E i1 i2).1 i2) := rfl

lemma alpha2NewAt_mem (s : FitState) (i1 i2 : ℕ) (hA : alphaInRange s.C s.alpha) :
    (clipBounds s.C (nth s.Y i1) (nth s.Y i2) (nth s.alpha i1) (nth s.alpha i2)).1
        ≤ alpha2NewAt s i1 i2 ∧
      alpha2NewAt s i1 i2
        ≤ (clipBounds s.C (nth s.Y i1) (nth s.Y i2) (nth s.alpha i1) (nth s.alpha i2)).2 := by
  obtain ⟨hL0, hHC, hLH⟩ := clipBounds_facts s.C (nth s.Y i1) (nth s.Y i2)
    (nth s.alpha i1) (nth s.alpha i2) (hA i1).1 (hA i1).2 (hA i2).1 (hA i2).2
  exact clip_bounds_mem _ _ _ hLH

lemma alpha2NewAt_range (s : FitState) (i1 i2 : ℕ) (hA : alphaInRange s.C s.alpha) :
    0 ≤ alpha2NewAt s i1 i2 ∧ alpha2NewAt s i1 i2 ≤ s.C := by
  obtain ⟨hL0, hHC, _⟩ := clipBounds_facts s.C (nth s.Y i1) (nth s.Y i2)
    (nth s.alpha i1) (nth s.alpha i2) (hA i1).1 (hA i1).2 (hA i2).1 (hA i2).2
  obtain ⟨hzl, hzu⟩ := alpha2NewAt_mem s i1 i2 hA
  exact ⟨le_trans hL0 hzl, le_trans hzu hHC⟩

lemma alpha1NewAt_range (s : FitState) (i1 i2 : ℕ)
    (hY : ∀ i, nth s.Y i = 1 ∨ nth s.Y i = -1 ∨ nth s.Y i = 0)
    (hA : alphaInRange s.C s.alpha) :
    0 ≤ alpha1NewAt s i1 i2 ∧ alpha1NewAt s i1 i2 ≤ s.C := by
  obtain ⟨hzl, hzu⟩ := alpha2NewAt_mem s i1 i2 hA
  unfold alpha1NewAt
  exact pair_update_in_range s.C (nth s.Y i1) (nth s.Y i2) (nth s.alpha i1)
    (nth s.alpha i2) (alpha2NewAt s i1 i2) (hY i1) (hY i2)
    (hA i1).1 (hA i1).2 hzl hzu

lemma commitUpdate_alphaInRange (s : FitState) (E : List ℚ) (i1 i2 : ℕ)
    (hY : ∀ i, nth s.Y i = 1 ∨ nth s.Y i = -1 ∨ nth s.Y i = 0)
    (hA : alphaInRange s.C s.alpha) :
    alphaInRange s.C (commitUpdate s E i1 i2).1.alpha := by
  intro j
  rw [commitUpdate_alpha, nth_set_set]
  split
  · exact alpha2NewAt_range s i1 i2 hA
  split
  · exact alpha1NewAt_range s i1 i2 hY hA
  · exact hA j

lemma innerStep_alphaInRange (s : FitState) (E : List ℚ) (i1 : ℕ)
    (hY : ∀ i, nth s.Y i = 1 ∨ nth s.Y i = -1 ∨ nth s.Y i = 0)
    (hA : alphaInRange s.C s.alpha) :
    alphaInRange s.C (innerStep s E i1).1.alpha := by
  rcases innerStep_eq_skip_or_commit s E i1 with h | ⟨_, h⟩
  · rw [h]; exact hA
  · rw [h]; exact commitUpdate_alphaInRange s E i1 _ hY hA

/-- C1 counterexample: with positive `C = 1/2`, labels in `{-1, +1}` and the
linear kernel, the trained model keeps the initial multiplier `1 > C`, so the
claimed range `[0, C]` fails for a positive `C` below one. -/
theorem alpha_range_counterexample :
    (0 : ℚ) < 1/2 ∧
    nth (fit (1/2) (1/1000) 1 linearKernel [[1]] [1]).alpha 0 = 1 ∧
    ¬ nth (fit (1/2) (1/1000) 1 linearKernel [[1]] [1]).alpha 0 ≤ 1/2 := by
  have hc : calcError oneState 0 = 0 := by
    norm_num [calcError, oneState, g, initState, nth, nthV, linearKernel, List.range_succ]
  have hstep : innerStep oneState (fullErrors oneState) 0 = (oneState, fullErrors oneState) := by
    simp only [innerStep]
    rw [if_pos (Or.inl hc)]
  have hpass : fitPass oneState = oneState := by
    have hr : List.range oneState.X.length = [0] := rfl
    simp only [fitPass, hr, List.foldl_cons, List.foldl_nil, hstep]
  have hfit : fit (1/2) (1/1000) 1 linearKernel [[1]] [1] = oneState := by
    show fitLoop 1 oneState = oneState
    rw [show fitLoop 1 oneState = fitLoop 0 (fitPass oneState) from rfl, hpass]
    rfl
  refine ⟨by norm_num, ?_, ?_⟩ <;>
    rw [hfit] <;>
    norm_num [oneState, initState, nth, List.replicate_succ]

/-- C1 amended: because `fit` initializes every multiplier to one, the range
invariant `0 ≤ α_i ≤ C` requires `C ≥ 1`; under that proviso (and labels in
`{-1, +1}`) it holds at initialization, is preserved by every inner step —
committed or skipped — and therefore holds in every trained model. -/
theorem alpha_range_invariant (C tol : ℚ) (maxIter : ℕ) (K : List ℚ → List ℚ → ℚ)
    (X : List (List ℚ)) (Y : List ℚ) (hC : 1 ≤ C)
    (hY : ∀ i, i < Y.length → nth Y i = 1 ∨ nth Y i = -1) :
    alphaInRange C (initState C tol K X Y).alpha ∧
    (∀ s E i1, s.C = C → s.Y = Y → alphaInRange C s.alpha →
      alphaInRange C (innerStep s E i1).1.alpha) ∧
    alphaInRange C (fit C tol maxIter K X Y).alpha := by
  have hY' : ∀ i, nth Y i = 1 ∨ nth Y i = -1 ∨ nth Y i = 0 := by
    intro i
    by_cases hi : i < Y.length
    · rcases hY i hi with h | h
      · exact Or.inl h
      · exact Or.inr (Or.inl h)
    · exact Or.inr (Or.inr (nth_oob Y (le_of_not_lt hi)))
  have hinit : alphaInRange C (initState C tol K X Y).alpha := by
    intro i
    show 0 ≤ nth (List.replicate X.length 1) i ∧ nth (List.replicate X.length 1) i ≤ C
    by_cases hi : i < X.length
    · have h1 : nth (List.replicate X.length 1) i = 1 := by
        simp [nth, List.getD_eq_getElem?_getD, List.getElem?_replicate, hi]
      rw [h1]
      exact ⟨zero_le_one, hC⟩
    · have h0 : nth (List.replicate X.length 1) i = 0 :=
        nth_oob _ (by rw [List.length_replicate]; omega)
      rw [h0]
      exact ⟨le_refl 0, by linarith⟩
  have hstep : ∀ s E i1, s.C = C → s.Y = Y → alphaInRange C s.alpha →
      alphaInRange C (innerStep s E i1).1.alpha := by
    intro s E i1 hsC hsY hsA
    have h := innerStep_alphaInRange s E i1 (by rw [hsY]; exact hY')
      (by rw [hsC]; exact hsA)
    rwa [hsC] at h
  refine ⟨hinit, hstep, ?_⟩
  have hpass : ∀ s, (s.C = C ∧ s.Y = Y ∧ alphaInRange C s.alpha) →
      ((fitPass s).C = C ∧ (fitPass s).Y = Y ∧ alphaInRange C (fitPass s).alpha) := by
    intro s hs
    simp only [fitPass]
    exact foldl_pres (fun p i1 => innerStep p.1 p.2 i1)
      (fun p => p.1.C = C ∧ p.1.Y = Y ∧ alphaInRange C p.1.alpha)
      (List.range s.X.length) (s, fullErrors s) ⟨hs.1, hs.2.1, hs.2.2⟩
      (fun p a _ hp => by
        obtain ⟨f1, _, _, _, f5, _, _⟩ := innerStep_frame p.1 p.2 a
        exact ⟨by rw [f1, hp.1], by rw [f5, hp.2.1],
          hstep p.1 p.2 a hp.1 hp.2.1 hp.2.2⟩)
  exact (fitLoop_pres (fun s => s.C = C ∧ s.Y = Y ∧ alphaInRange C s.alpha) hpass
    maxIter (initState C tol K X Y) ⟨rfl, rfl, hinit⟩).2.2

theorem alpha_range_invariant_witness :
    alphaInRange 1 (initState 1 (1/1000) linearKernel toyX toyY).alpha ∧
    (∀ s E i1, s.C = 1 → s.Y = toyY → alphaInRange 1 s.alpha →
      alphaInRange 1 (innerStep s E i1).1.alpha) ∧
    alphaInRange 1 (fit 1 (1/1000) 10 linearKernel toyX toyY).alpha :=
  alpha_range_invariant 1 (1/1000) 10 linearKernel toyX toyY (le_refl 1)
    (by
      intro i hi
      match i, hi with
      | 0, _ => exact Or.inl rfl
      | 1, _ => exact Or.inr rfl
      | n + 2, h => exact absurd h (by simp [toyY]))

lemma wsum_set (Y alpha : List ℚ) (i : ℕ) (a : ℚ) (hi : i < alpha.length) :
    wsum Y (alpha.set i a) = wsum Y alpha + nth Y i * (a - nth alpha i) := by
  unfold wsum
  rw [List.length_set]
  have hsplit : ∀ j, nth Y j * nth (alpha.set i a) j =
      nth Y j * nth alpha j + (if j = i then nth Y i * (a - nth alpha i) else 0) := by
    intro j
    by_cases hji : j = i
    · subst hji
      rw [nth_set_eq alpha j a hi, if_pos rfl]
      ring
    · rw [nth_set_ne alpha a (fun h => hji h.symm), if_neg hji]
      ring
  rw [Finset.sum_congr rfl (fun j _ => hsplit j), Finset.sum_add_distrib,
    Finset.sum_ite_eq' (Finset.range alpha.length) i
      (fun _ => nth Y i * (a - nth alpha i)),
    if_pos (Finset.mem_range.mpr hi)]

lemma wsum_pair_update (Y alpha : List ℚ) (i1 i2 : ℕ) (z : ℚ)
    (h12 : i1 ≠ i2) (hi1 : i1 < alpha.length) (hi2 : i2 < alpha.length)
    (hy1 : nth Y i1 = 1 ∨ nth Y i1 = -1) :
    wsum Y ((alpha.set i1
        (nth alpha i1 + nth Y i1 * nth Y i2 * (nth alpha i2 - z))).set i2 z)
      = wsum Y alpha := by
  rw [wsum_set Y _ i2 z (by rwa [List.length_set]),
    wsum_set Y alpha i1 _ hi1, nth_set_ne alpha _ h12]
  rcases hy1 with h | h <;> rw [h] <;> ring

lemma commitUpdate_wsum (s : FitState) (E : List ℚ) (i1 i2 : ℕ)
    (h12 : i1 ≠ i2) (hi1 : i1 < s.alpha.length) (hi2 : i2 < s.alpha.length)
    (hy1 : nth s.Y i1 = 1 ∨ nth s.Y i1 = -1) :
    wsum s.Y (commitUpdate s E i1 i2).1.alpha = wsum s.Y s.alpha := by
  rw [commitUpdate_alpha]
  unfold alpha1NewAt
  exact wsum_pair_update s.Y s.alpha i1 i2 (alpha2NewAt s i1 i2) h12 hi1 hi2 hy1

lemma argmin_lt_length (E : List ℚ) (h : 0 < E.length) : argmin E < E.length := by
  unfold argmin
  exact foldl_pres _ (fun b => b < E.length) (List.range E.length) 0 h
    (fun b' a ha hb => by
      split
      · exact List.mem_range.mp ha
      · exact hb)

lemma argmax_lt_length (E : List ℚ) (h : 0 < E.length) : argmax E < E.length := by
  unfold argmax
  exact foldl_pres _ (fun b => b < E.length) (List.range E.length) 0 h
    (fun b' a ha hb => by
      split
      · exact List.mem_range.mp ha
      · exact hb)

lemma selectI2_lt_length (E1 : ℚ) (E : List ℚ) (h : 0 < E.length) :
    selectI2 E1 E < E.length := by
  unfold selectI2
  split
  · exact argmin_lt_length E h
  · exact argmax_lt_length E h

lemma innerStep_wsum (s : FitState) (E : List ℚ) (i1 : ℕ)
    (hY : ∀ i, i < s.Y.length → nth s.Y i = 1 ∨ nth s.Y i = -1)
    (hYlen : s.alpha.length ≤ s.Y.length)
    (hE : E.length = s.alpha.length)
    (hi1 : i1 < s.alpha.length) :
    wsum s.Y (innerStep s E i1).1.alpha = wsum s.Y s.alpha := by
  rcases innerStep_eq_skip_or_commit s E i1 with h | ⟨hne, h⟩
  · rw [h]
  · rw [h]
    refine commitUpdate_wsum s E i1 _ hne hi1 ?_ (hY i1 (lt_of_lt_of_le hi1 hYlen))
    have := selectI2_lt_length (calcError s i1) E (by omega)
    omega

/-- C10: committed pairwise updates preserve the label-weighted multiplier sum
`Σ y_i α_i` (each update changes the pair by `y1 α1 + y2 α2`-preserving
amounts), so over a whole run the sum keeps its post-initialization value. -/
theorem weighted_multiplier_sum_invariant (C tol : ℚ) (maxIter : ℕ)
    (K : List ℚ → List ℚ → ℚ) (X : List (List ℚ)) (Y : List ℚ)
    (hY : ∀ i, i < Y.length → nth Y i = 1 ∨ nth Y i = -1)
    (hlen : Y.length = X.length) :
    (∀ s E i1, s.Y = Y → s.alpha.length = X.length → E.length = X.length →
      i1 < X.length → wsum s.Y (innerStep s E i1).1.alpha = wsum s.Y s.alpha) ∧
    wsum Y (fit C tol maxIter K X Y).alpha = wsum Y (initState C tol K X Y).alpha := by
  have hstep : ∀ s E i1, s.Y = Y → s.alpha.length = X.length → E.length = X.length →
      i1 < X.length → wsum s.Y (innerStep s E i1).1.alpha = wsum s.Y s.alpha := by
    intro s E i1 hsY hsA hsE hi1
    apply innerStep_wsum
    · rw [hsY]; exact hY
    · rw [hsY, hsA, hlen]
    · omega
    · omega
  refine ⟨hstep, ?_⟩
  have hpass : ∀ s, (s.Y = Y ∧ s.X = X ∧ s.alpha.length = X.length ∧
        wsum Y s.alpha = wsum Y (initState C tol K X Y).alpha) →
      ((fitPass s).Y = Y ∧ (fitPass s).X = X ∧ (fitPass s).alpha.length = X.length ∧
        wsum Y (fitPass s).alpha = wsum Y (initState C tol K X Y).alpha) := by
    intro s hs
    obtain ⟨h1, h2, h3, h4⟩ := hs
    simp only [fitPass]
    have hfold := foldl_pres (fun p i1 => innerStep p.1 p.2 i1)
      (fun p => p.1.Y = Y ∧ p.1.X = X ∧ p.1.alpha.length = X.length ∧
        p.2.length = X.length ∧
        wsum Y p.1.alpha = wsum Y (initState C tol K X Y).alpha)
      (List.range s.X.length) (s, fullErrors s)
      ⟨h1, h2, h3, by simp [fullErrors, h2], h4⟩
      (fun p a ha hp => by
        obtain ⟨p1, p2, p3, p4, p5⟩ := hp
        obtain ⟨_, _, _, fX, fY, fA, fE⟩ := innerStep_frame p.1 p.2 a
        refine ⟨by rw [fY, p1], by rw [fX, p2], by rw [fA, p3], by rw [fE, p4], ?_⟩
        have hw := hstep p.1 p.2 a p1 p3 p4 (by rwa [← h2, ← List.mem_range])
        rw [p1] at hw
        rw [hw, p5])
    exact ⟨hfold.1, hfold.2.1, hfold.2.2.1, hfold.2.2.2.2⟩
  exact (fitLoop_pres _ hpass maxIter (initState C tol K X Y)
    ⟨rfl, rfl, by simp [initState], rfl⟩).2.2.2

theorem weighted_multiplier_sum_invariant_witness :
    (∀ s E i1, s.Y = toyY → s.alpha.length = toyX.length → E.length = toyX.length →
      i1 < toyX.length → wsum s.Y (innerStep s E i1).1.alpha = wsum s.Y s.alpha) ∧
    wsum toyY (fit 1 (1/1000) 10 linearKernel toyX toyY).alpha =
      wsum toyY (initState 1 (1/1000) linearKernel toyX toyY).alpha :=
  weighted_multiplier_sum_invariant 1 (1/1000) 10 linearKernel toyX toyY
    (by
      intro i hi
      match i, hi with
      | 0, _ => exact Or.inl rfl
      | 1, _ => exact Or.inr rfl
      | n + 2, h => exact absurd h (by simp [toyY]))
    rfl

/-- C3: each outer pass computes the error vector in full once at its start
and folds the inner steps over it; each step recomputes `E1` directly from the
current state and skips when it is zero or the KKT check holds; otherwise `i2`
is the argmin of the cached `E` for `E1 > 0` and the argmax for `E1 ≤ 0`, the
pair is skipped when `i2 = i1`, and the cache keeps its length and is patched
only at the two indices of a committed update, with directly recomputed
errors. -/
theorem error_cache_policy (s : FitState) (E : List ℚ) (i1 : ℕ) :
    fitPass s = ((List.range s.X.length).foldl (fun p i => innerStep p.1 p.2 i)
      (s, (List.range s.X.length).map (calcError s))).1 ∧
    (calcError s i1 = 0 ∨ satisfyKkt s i1 = true → innerStep s E i1 = (s, E)) ∧
    (0 < calcError s i1 → selectI2 (calcError s i1) E = argmin E) ∧
    (calcError s i1 ≤ 0 → selectI2 (calcError s i1) E = argmax E) ∧
    (i1 = selectI2 (calcError s i1) E → innerStep s E i1 = (s, E)) ∧
    ((innerStep s E i1).2.length = E.length ∧
      ∀ j, j ≠ i1 → j ≠ selectI2 (calcError s i1) E →
        nth (innerStep s E i1).2 j = nth E j) ∧
    ∀ i2, (commitUpdate s E i1 i2).2 =
      (E.set i1 (calcError (commitUpdate s E i1 i2).1 i1)).set i2
        (calcError (commitUpdate s E i1 i2).1 i2) := by
  refine ⟨rfl, ?_, ?_, ?_, ?_, ⟨(innerStep_frame s E i1).2.2.2.2.2.2, ?_⟩, ?_⟩
  · intro h
    simp only [innerStep]
    rw [if_pos h]
  · intro h
    unfold selectI2
    rw [if_pos h]
  · intro h
    unfold selectI2
    rw [if_neg (not_lt.mpr h)]
  · intro h
    simp only [innerStep]
    by_cases h1 : calcError s i1 = 0 ∨ satisfyKkt s i1 = true
    · rw [if_pos h1]
    · rw [if_neg h1, if_pos h]
  · intro j hj1 hj2
    rcases innerStep_eq_skip_or_commit s E i1 with h | ⟨_, h⟩
    · rw [h]
    · rw [h, commitUpdate_E, nth_set_set]
      rw [if_neg (fun hcon => hj2 hcon.1.symm), if_neg (fun hcon => hj1 hcon.1.symm)]
  · intro i2
    exact commitUpdate_E s E i1 i2

/-- C5: the clipping bounds are `L = max(0, α2-α1)`, `H = min(C, C+α2-α1)` for
opposite-sign labels and `L = max(0, α1+α2-C)`, `H = min(C, α1+α2)` for
same-sign labels, and a candidate pair with `L = H` or curvature `η ≤ 0` is
silently skipped with no state or cache change. -/
theorem clipping_bounds_and_skips (s : FitState) (E : List ℚ) (i1 : ℕ)
    (y1 y2 a1 a2 C : ℚ) (hy1 : y1 = 1 ∨ y1 = -1) (hy2 : y2 = 1 ∨ y2 = -1) :
    (y1 ≠ y2 → clipBounds C y1 y2 a1 a2 = (max 0 (a2 - a1), min C (C + a2 - a1))) ∧
    (y1 = y2 → clipBounds C y1 y2 a1 a2 = (max 0 (a1 + a2 - C), min C (a1 + a2))) ∧
    ((clipBounds s.C (nth s.Y i1) (nth s.Y (selectI2 (calcError s i1) E))
        (nth s.alpha i1) (nth s.alpha (selectI2 (calcError s i1) E))).1 =
      (clipBounds s.C (nth s.Y i1) (nth s.Y (selectI2 (calcError s i1) E))
        (nth s.alpha i1) (nth s.alpha (selectI2 (calcError s i1) E))).2 →
      innerStep s E i1 = (s, E)) ∧
    (etaOf s i1 (selectI2 (calcError s i1) E) ≤ 0 → innerStep s E i1 = (s, E)) := by
  refine ⟨?_, ?_, ?_, ?_⟩
  · intro hne
    apply clipBounds_opp
    rcases hy1 with h | h <;> rcases hy2 with h' | h' <;> subst h <;> subst h' <;>
      first
      | exact absurd rfl hne
      | norm_num
  · intro heq
    apply clipBounds_same
    rcases hy1 with h | h <;> rcases hy2 with h' | h' <;> subst h <;> subst h' <;>
      norm_num at heq ⊢
  · intro hLH
    simp only [innerStep]
    by_cases h1 : calcError s i1 = 0 ∨ satisfyKkt s i1 = true
    · rw [if_pos h1]
    rw [if_neg h1]
    by_cases h2 : i1 = selectI2 (calcError s i1) E
    · rw [if_pos h2]
    · rw [if_neg h2, if_pos hLH]
  · intro heta
    simp only [innerStep]
    by_cases h1 : calcError s i1 = 0 ∨ satisfyKkt s i1 = true
    · rw [if_pos h1]
    rw [if_neg h1]
    by_cases h2 : i1 = selectI2 (calcError s i1) E
    · rw [if_pos h2]
    rw [if_neg h2]
    by_cases h3 : (clipBounds s.C (nth s.Y i1) (nth s.Y (selectI2 (calcError s i1) E))
        (nth s.alpha i1) (nth s.alpha (selectI2 (calcError s i1) E))).1 =
      (clipBounds s.C (nth s.Y i1) (nth s.Y (selectI2 (calcError s i1) E))
        (nth s.alpha i1) (nth s.alpha (selectI2 (calcError s i1) E))).2
    · rw [if_pos h3]
    · rw [if_neg h3, if_pos heta]

theorem clipping_bounds_and_skips_witness :
    ((1 : ℚ) ≠ -1 → clipBounds 1 1 (-1) 1 1 = (max 0 (1 - 1), min 1 (1 + 1 - 1))) ∧
    ((1 : ℚ) = -1 → clipBounds 1 1 (-1) 1 1 = (max 0 (1 + 1 - 1), min 1 (1 + 1))) ∧
    ((clipBounds toyState.C (nth toyState.Y 0)
        (nth toyState.Y (selectI2 (calcError toyState 0) [3, -3]))
        (nth toyState.alpha 0)
        (nth toyState.alpha (selectI2 (calcError toyState 0) [3, -3]))).1 =
      (clipBounds toyState.C (nth toyState.Y 0)
        (nth toyState.Y (selectI2 (calcError toyState 0) [3, -3]))
        (nth toyState.alpha 0)
        (nth toyState.alpha (selectI2 (calcError toyState 0) [3, -3]))).2 →
      innerStep toyState [3, -3] 0 = (toyState, [3, -3])) ∧
    (etaOf toyState 0 (selectI2 (calcError toyState 0) [3, -3]) ≤ 0 →
      innerStep toyState [3, -3] 0 = (toyState, [3, -3])) :=
  clipping_bounds_and_skips toyState [3, -3] 0 1 (-1) 1 1 1
    (Or.inl rfl) (Or.inr rfl)

/-- C6: a committed step sets the second multiplier to the clipped update, the
first by `α1 + y1 y2 (α2 - α2_new)`, and the bias to `b1_new` when `α1_new` is
strictly interior to `(0, C)`, else `b2_new` when `α2_new` is, else the average
of the two candidates. -/
theorem committed_update_formulas (s : FitState) (E : List ℚ) (i1 : ℕ)
    (h1 : ¬ (calcError s i1 = 0 ∨ satisfyKkt s i1 = true))
    (h2 : i1 ≠ selectI2 (calcError s i1) E)
    (h3 : (clipBounds s.C (nth s.Y i1) (nth s.Y (selectI2 (calcError s i1) E))
        (nth s.alpha i1) (nth s.alpha (selectI2 (calcError s i1) E))).1 ≠
      (clipBounds s.C (nth s.Y i1) (nth s.Y (selectI2 (calcError s i1) E))
        (nth s.alpha i1) (nth s.alpha (selectI2 (calcError s i1) E))).2)
    (h4 : ¬ etaOf s i1 (selectI2 (calcError s i1) E) ≤ 0) :
    (innerStep s E i1).1.alpha =
      (s.alpha.set i1 (alpha1NewAt s i1 (selectI2 (calcError s i1) E))).set
        (selectI2 (calcError s i1) E) (alpha2NewAt s i1 (selectI2 (calcError s i1) E)) ∧
    (innerStep s E i1).1.b =
      (if 0 < alpha1NewAt s i1 (selectI2 (calcError s i1) E) ∧
          alpha1NewAt s i1 (selectI2 (calcError s i1) E) < s.C then
        b1NewAt s i1 (selectI2 (calcError s i1) E)
      else if 0 < alpha2NewAt s i1 (selectI2 (calcError s i1) E) ∧
          alpha2NewAt s i1 (selectI2 (calcError s i1) E) < s.C then
        b2NewAt s i1 (selectI2 (calcError s i1) E)
      else (b1NewAt s i1 (selectI2 (calcError s i1) E) +
          b2NewAt s i1 (selectI2 (calcError s i1) E)) / 2) := by
  have hstep : innerStep s E i1 = commitUpdate s E i1 (selectI2 (calcError s i1) E) := by
    simp only [innerStep]
    rw [if_neg h1, if_neg h2, if_neg h3, if_neg h4]
  rw [hstep]
  exact ⟨commitUpdate_alpha s E i1 _, commitUpdate_b s E i1 _⟩

theorem committed_update_formulas_witness :
    (innerStep toyState [3, -3] 0).1.alpha =
      (toyState.alpha.set 0 (alpha1NewAt toyState 0 (selectI2 (calcError toyState 0) [3, -3]))).set
        (selectI2 (calcError toyState 0) [3, -3])
        (alpha2NewAt toyState 0 (selectI2 (calcError toyState 0) [3, -3])) ∧
    (innerStep toyState [3, -3] 0).1.b =
      (if 0 < alpha1NewAt toyState 0 (selectI2 (calcError toyState 0) [3, -3]) ∧
          alpha1NewAt toyState 0 (selectI2 (calcError toyState 0) [3, -3]) < toyState.C then
        b1NewAt toyState 0 (selectI2 (calcError toyState 0) [3, -3])
      else if 0 < alpha2NewAt toyState 0 (selectI2 (calcError toyState 0) [3, -3]) ∧
          alpha2NewAt toyState 0 (selectI2 (calcError toyState 0) [3, -3]) < toyState.C then
        b2NewAt toyState 0 (selectI2 (calcError toyState 0) [3, -3])
      else (b1NewAt toyState 0 (selectI2 (calcError toyState 0) [3, -3]) +
          b2NewAt toyState 0 (selectI2 (calcError toyState 0) [3, -3])) / 2) :=
  committed_update_formulas toyState [3, -3] 0
    (by
      norm_num [calcError, satisfyKkt, toyState, initState, g, nth, nthV,
        linearKernel, toyX, toyY, List.range_succ, List.replicate_succ])
    (by
      norm_num [selectI2, argmin, argmax, calcError, toyState, initState, g, nth,
        nthV, linearKernel, toyX, toyY, List.range_succ, List.replicate_succ])
    (by
      norm_num [clipBounds, selectI2, argmin, argmax, calcError, toyState,
        initState, g, nth, nthV, linearKernel, toyX, toyY, List.range_succ,
        List.replicate_succ])
    (by
      norm_num [etaOf, selectI2, argmin, argmax, calcError, toyState, initState,
        g, nth, nthV, linearKernel, toyX, toyY, List.range_succ,
        List.replicate_succ])

lemma foldl_passTraceStep_fst (l : List ℕ) :
    ∀ (p : FitState × List ℚ) (acc : List (List ℚ × ℚ)),
      (l.foldl passTraceStep (p, acc)).1 =
        l.foldl (fun q i1 => innerStep q.1 q.2 i1) p := by
  induction l with
  | nil => intro p acc; rfl
  | cons x xs ih =>
      intro p acc
      simp only [List.foldl_cons, passTraceStep]
      exact ih _ _

lemma fitPassTrace_fst (s : FitState) : (fitPassTrace s).1 = fitPass s := by
  show ((List.range s.X.length).foldl passTraceStep ((s, fullErrors s), [])).1.1 = _
  rw [foldl_passTraceStep_fst]
  rfl

/-- C9: `fit` is a deterministic function of its inputs: two model instances
with equal hyperparameters, kernel and training data produce identical
`(alpha, b)` trajectories at every inner step and identical trained states;
the trace is faithful (its final state is the pass's state), and the
multipliers are always initialized to all ones, never randomized. -/
theorem fit_deterministic (C tol : ℚ) (maxIter : ℕ) (K : List ℚ → List ℚ → ℚ)
    (X : List (List ℚ)) (Y : List ℚ)
    (C' tol' : ℚ) (maxIter' : ℕ) (K' : List ℚ → List ℚ → ℚ)
    (X' : List (List ℚ)) (Y' : List ℚ)
    (hC : C = C') (ht : tol = tol') (hm : maxIter = maxIter') (hK : K = K')
    (hX : X = X') (hY : Y = Y') :
    fitTrace C tol maxIter K X Y = fitTrace C' tol' maxIter' K' X' Y' ∧
    fit C tol maxIter K X Y = fit C' tol' maxIter' K' X' Y' ∧
    (initState C tol K X Y).alpha = List.replicate X.length 1 ∧
    ∀ s, (fitPassTrace s).1 = fitPass s := by
  subst hC; subst ht; subst hm; subst hK; subst hX; subst hY
  exact ⟨rfl, rfl, rfl, fitPassTrace_fst⟩

theorem fit_deterministic_witness :
    fitTrace 1 (1/1000) 10 linearKernel toyX toyY =
      fitTrace 1 (1/1000) 10 linearKernel toyX toyY ∧
    fit 1 (1/1000) 10 linearKernel toyX toyY =
      fit 1 (1/1000) 10 linearKernel toyX toyY ∧
    (initState 1 (1/1000) linearKernel toyX toyY).alpha =
      List.replicate toyX.length 1 ∧
    ∀ s, (fitPassTrace s).1 = fitPass s :=
  fit_deterministic 1 (1/1000) 10 linearKernel toyX toyY 1 (1/1000) 10 linearKernel
    toyX toyY rfl rfl rfl rfl rfl rfl

end SVM
